import Mathlib

set_option maxRecDepth 10000

/-!
Verification development for the van-organizer route-stacker core
(`src/tools/route_stacker.py`).  Python text values are modelled as `String`
(manipulated as `List Char`), Python ints as `Nat` (the parser only produces
non-negative values), fallible computations as `Option`/`Except`.  A doc
comment on each definition names the source function it embeds.
-/

namespace RouteStacker

/-- ASCII model of Python whitespace, as used by `str.strip`, `str.split()` and
the regex class `\s`. -/
def pyIsSpace (c : Char) : Bool :=
  c == ' ' || c == '\t' || c == '\n' || c == '\r' || c == '\x0b' || c == '\x0c'

/-- ASCII model of the regex word class `\w` (used for `\b` boundaries). -/
def isWordChar (c : Char) : Bool := c.isAlpha || c.isDigit || c == '_'

/-- Character class `[0-9.]` of SPLIT_RE / ZONE_RE. -/
def isDigitDot (c : Char) : Bool := c.isDigit || c == '.'

/-- Python `str.strip()`: drop whitespace from both ends. -/
def pyStrip (cs : List Char) : List Char :=
  ((cs.dropWhile pyIsSpace).reverse.dropWhile pyIsSpace).reverse

/-- Helper for `pyWords`: `acc` holds the current word reversed. -/
def pyWordsAux : List Char → List Char → List (List Char)
  | [], acc => if acc.isEmpty then [] else [acc.reverse]
  | c :: rest, acc =>
    if pyIsSpace c then
      if acc.isEmpty then pyWordsAux rest [] else acc.reverse :: pyWordsAux rest []
    else pyWordsAux rest (c :: acc)

/-- Python `str.split()` with no arguments: whitespace-separated words, empty
strings dropped. -/
def pyWords (s : String) : List String :=
  (pyWordsAux s.toList []).map String.mk

/-- Helper for `pySplitlines`: `acc` holds the current line reversed. -/
def pySplitlinesAux : List Char → List Char → List String
  | [], acc => if acc.isEmpty then [] else [String.mk acc.reverse]
  | '\r' :: '\n' :: rest, acc => String.mk acc.reverse :: pySplitlinesAux rest []
  | '\r' :: rest, acc => String.mk acc.reverse :: pySplitlinesAux rest []
  | '\n' :: rest, acc => String.mk acc.reverse :: pySplitlinesAux rest []
  | c :: rest, acc => pySplitlinesAux rest (c :: acc)

/-- Python `str.splitlines()` restricted to the \n, \r and \r\n terminators. -/
def pySplitlines (s : String) : List String := pySplitlinesAux s.toList []

/-- Boolean list-prefix test (model of `str.startswith`). -/
def isPrefixOfL : List Char → List Char → Bool
  | [], _ => true
  | _ :: _, [] => false
  | a :: as, b :: bs => a == b && isPrefixOfL as bs

/-- Helper: `needle` occurs as a contiguous substring of the second list
(model of Python `in` on strings). -/
def containsSubL (needle : List Char) : List Char → Bool
  | [] => needle.isEmpty
  | c :: rest => isPrefixOfL needle (c :: rest) || containsSubL needle rest

/-- Python `needle in hay` for strings. -/
def containsSub (needle hay : String) : Bool := containsSubL needle.toList hay.toList

/-- Value of a non-empty digit string. -/
def digitsToNat (ds : List Char) : Nat := ds.foldl (fun a c => 10 * a + (c.toNat - 48)) 0

/-- `parse_int_safe` (route_stacker.py lines 140-150): keep the digit
characters of the token; an all-non-digit token yields `None` (a logged
warning in Python), otherwise the resulting integer. -/
def parse_int_safe (t : String) : Option Nat :=
  let ds := t.toList.filter Char.isDigit
  if ds.isEmpty then none else some (digitsToNat ds)

/-- `extract_bag_num_str` (lines 152-159): digit characters with leading zeros
preserved; `None` when no digits. -/
def extract_bag_num_str (t : String) : Option String :=
  let ds := t.toList.filter Char.isDigit
  if ds.isEmpty then none else some (String.mk ds)

/-- ZONE_RE `^(?:[A-Z]-[0-9.]*[A-Z]+|99\.[A-Z0-9]+)$` (line 86); the character
classes `[0-9.]` and `[A-Z]` are disjoint, so the regex match is equivalent to
taking the maximal `[0-9.]` prefix. -/
def is_zone (z : String) : Bool :=
  match z.toList with
  | c :: '-' :: rest =>
    c.isUpper &&
      (let ls := rest.dropWhile isDigitDot
       !ls.isEmpty && ls.all Char.isUpper)
  | '9' :: '9' :: '.' :: rest => !rest.isEmpty && rest.all (fun c => c.isUpper || c.isDigit)
  | _ => false

/-- SPLIT_RE `^([0-9.]*)([A-Z]+)$` (line 87) applied to the part after the
first dash, returning the numeric group and the LAST letter (Python
`letters[-1]`); `none` when the regex does not match. -/
def splitReMatch (tail : List Char) : Option (List Char × Char) :=
  let num := tail.takeWhile isDigitDot
  let ls := tail.dropWhile isDigitDot
  if ls.isEmpty then none
  else if ls.all Char.isUpper then some (num, ls.getLastD 'A') else none

/-- `split_zone_for_index` (lines 339-348).  The result `none` models the
IndexError Python raises on `z = ""` (evaluating `z[-1]` on an empty string);
every non-empty input yields `some`. -/
def split_zone_for_index (z : String) : Option (String × Char) :=
  let cs := z.toList
  if cs.contains '-' then
    let pre := cs.takeWhile (fun c => c != '-')
    let tail := (cs.dropWhile (fun c => c != '-')).tail
    match splitReMatch tail with
    | some (num, L) =>
      some (String.mk (if num.isEmpty then pre else pre ++ '-' :: num), L)
    | none => some (String.mk cs.dropLast, cs.getLastD '-')
  else
    match cs.getLast? with
    | none => none
    | some c => some (String.mk cs.dropLast, c)

/-- Python `zone.split("-", 1)[1] if "-" in zone else zone` (line 365). -/
def labelCore (z : String) : String :=
  let cs := z.toList
  if cs.contains '-' then String.mk ((cs.dropWhile (fun c => c != '-')).tail) else z

/-- `is_99_tag` (lines 161-164): first whitespace-separated word of the
stripped label starts with `"99."`. -/
def is_99_tag (label : String) : Bool :=
  let clean := pyStrip label.toList
  let first := clean.takeWhile (fun c => !pyIsSpace c)
  isPrefixOfL ['9', '9', '.'] first

/-- PAIR_MAP (line 83). -/
def PAIR_MAP : List (Char × Char) :=
  [('A', 'T'), ('B', 'U'), ('C', 'W'), ('D', 'X'), ('E', 'Y'), ('G', 'Z')]

/-- INVERSE_PAIR (line 84): `{v: k for k, v in PAIR_MAP.items()}`. -/
def INVERSE_PAIR : List (Char × Char) := PAIR_MAP.map (fun p => (p.2, p.1))

/-- Python `dict.get` on a small association list with distinct keys. -/
def dictGet (m : List (Char × Char)) (c : Char) : Option Char :=
  (m.find? (fun p => p.1 == c)).map (fun p => p.2)

/-- Bag record produced by `parse_route_page` (lines 273-297). -/
structure Bag where
  idx : Nat
  sort_zone : Option String
  bag : String
  pkgs : Nat
deriving DecidableEq

/-- Key of one bag in the `(core, letter)` index of `assign_overflows`
(lines 351-357); `none` when `sort_zone` is absent or falsy (the empty
string), mirroring `if not sz: continue`.  For a non-empty zone the split
never fails, so the inner `none` branch cannot fire. -/
def zoneKeyOf (b : Bag) : Option (String × Char) :=
  match b.sort_zone with
  | none => none
  | some sz => if sz = "" then none else split_zone_for_index sz

/-- Helper: positions (counted from `i`) of bags whose zone key is
`(core, L)`, in ascending order — the dict-of-lists built on lines 351-357. -/
def bagIdxAux (core : String) (L : Char) : Nat → List Bag → List Nat
  | _, [] => []
  | i, b :: bs =>
    if zoneKeyOf b == some (core, L) then i :: bagIdxAux core L (i + 1) bs
    else bagIdxAux core L (i + 1) bs

/-- `bag_idx[(core, L)]`, as the (possibly empty) list of bag positions. -/
def bag_idx_list (bags : List Bag) (core : String) (L : Char) : List Nat :=
  bagIdxAux core L 0 bags

/-- The bag choice for one overflow line (lines 363-390).  The outer `none`
models the IndexError propagating out of `split_zone_for_index` on an empty
zone token; the inner option is `bi` (`none` = line dropped, which the
fallback chain only allows when `bags` is empty). -/
def chooseBag (bags : List Bag) (last : Option Nat) (zone : String) : Option (Option Nat) :=
  match split_zone_for_index zone with
  | none => none
  | some (core, L) =>
    let bi0 : Option Nat :=
      if is_99_tag (labelCore zone) then
        match last with
        | none => if bags.length != 0 then some 0 else none
        | some j => some j
      else
        match dictGet INVERSE_PAIR L with
        | some need =>
          match bag_idx_list bags core need with
          | i :: _ => some i
          | [] =>
            match bag_idx_list bags core L with
            | i :: _ => some i
            | [] => none
        | none =>
          match bag_idx_list bags core L with
          | i :: _ => some i
          | [] => none
    let bi : Option Nat :=
      match bi0 with
      | some i => some i
      | none =>
        match last with
        | some j => some j
        | none => if !bags.isEmpty then some 0 else none
    some bi

/-- Mutable state of the `assign_overflows` loop: per-bag text lists, per-bag
totals, and `last_assigned_bag`. -/
structure OvState where
  texts : List (List String)
  totals : List Nat
  last : Option Nat

/-- One iteration of the loop on lines 363-395: choose a bag, and when one was
found append `"<label_core> (<count>)"` to its text list, add the count to its
total and update `last_assigned_bag`. -/
def assignStep (bags : List Bag) (st : OvState) (line : String × Nat) : Option OvState :=
  (chooseBag bags st.last line.1).map fun bi =>
    match bi with
    | none => st
    | some i =>
      { texts := st.texts.set i ((st.texts.getD i []) ++ [labelCore line.1 ++ " (" ++ toString line.2 ++ ")"])
        totals := st.totals.set i ((st.totals.getD i 0) + line.2)
        last := some i }

/-- `assign_overflows` (lines 350-397); `none` models an uncaught IndexError. -/
def assign_overflows (bags : List Bag) (overs : List (String × Nat)) :
    Option (List (List String) × List Nat) :=
  (List.foldlM (assignStep bags) ⟨bags.map (fun _ => []), bags.map (fun _ => 0), none⟩ overs).map
    fun st => (st.texts, st.totals)

/-- Total number of overflow-text strings over all bags. -/
def sumLens (l : List (List String)) : Nat := (l.map List.length).sum

/-- BAG_COLORS_ALLOWED (lines 90-93). -/
def BAG_COLORS_ALLOWED : List String :=
  ["Yellow", "Green", "Orange", "Black", "Navy", "Blue", "Brown", "Grey", "Gray", "Purple"]

/-- Python `str.isdigit()` (ASCII): non-empty and all digits. -/
def pyIsDigitStr (s : String) : Bool := !s.toList.isEmpty && s.toList.all Char.isDigit

/-- Guard of the full bag row `idx zone color bag pkgs` (lines 263-268). -/
def condFull (toks : List String) (ptr : Nat) : Bool :=
  decide (ptr + 4 < toks.length) && pyIsDigitStr (toks.getD ptr "") &&
    is_zone (toks.getD (ptr + 1) "") && BAG_COLORS_ALLOWED.contains (toks.getD (ptr + 2) "")

/-- Guard of the zoneless bag row `idx color bag pkgs` (lines 283-287). -/
def condNoZone (toks : List String) (ptr : Nat) : Bool :=
  decide (ptr + 3 < toks.length) && pyIsDigitStr (toks.getD ptr "") &&
    BAG_COLORS_ALLOWED.contains (toks.getD (ptr + 1) "")

/-- Guard of the overflow row `idx zone pkgs` (lines 302-306). -/
def condOver (toks : List String) (ptr : Nat) : Bool :=
  decide (ptr + 2 < toks.length) && pyIsDigitStr (toks.getD ptr "") &&
    is_zone (toks.getD (ptr + 1) "")

/-- Bag built by the full row branch (lines 269-278); empty when any numeric
field fails to parse. -/
def fullRowBag (toks : List String) (ptr : Nat) : List Bag :=
  match parse_int_safe (toks.getD ptr ""), extract_bag_num_str (toks.getD (ptr + 3) ""),
      parse_int_safe (toks.getD (ptr + 4) "") with
  | some i, some bn, some pk =>
    [⟨i, some (toks.getD (ptr + 1) ""), (toks.getD (ptr + 2) "") ++ " " ++ bn, pk⟩]
  | _, _, _ => []

/-- Bag built by the zoneless row branch (lines 288-297). -/
def noZoneRowBag (toks : List String) (ptr : Nat) : List Bag :=
  match parse_int_safe (toks.getD ptr ""), extract_bag_num_str (toks.getD (ptr + 2) ""),
      parse_int_safe (toks.getD (ptr + 3) "") with
  | some i, some bn, some pk => [⟨i, none, (toks.getD (ptr + 1) "") ++ " " ++ bn, pk⟩]
  | _, _, _ => []

/-- Overflow pair built by the overflow row branch (lines 307-309). -/
def overRow (toks : List String) (ptr : Nat) : List (String × Nat) :=
  match parse_int_safe (toks.getD (ptr + 2) "") with
  | some pk => [(toks.getD (ptr + 1) "", pk)]
  | none => []

/-- Number of tokens the pointer advances by at one loop iteration of
`parse_route_page` (lines 261-313): 5, 4 or 3 for the three row shapes tried
in priority order, 1 on no match. -/
def scanAdvance (toks : List String) (ptr : Nat) : Nat :=
  if condFull toks ptr then 5
  else if condNoZone toks ptr then 4
  else if condOver toks ptr then 3
  else 1

/-- The token-scanning `while` loop of `parse_route_page` (lines 261-313),
with explicit fuel so the kernel can evaluate it; `parse_route_page` runs it
with fuel = number of tokens, which suffices because the pointer advances by
at least one token per iteration (see `scan_loop_terminates`). -/
def scanFromF : Nat → List String → Nat → List Bag × List (String × Nat)
  | 0, _, _ => ([], [])
  | fuel + 1, toks, ptr =>
    if ptr < toks.length then
      if condFull toks ptr then
        let rest := scanFromF fuel toks (ptr + 5)
        (fullRowBag toks ptr ++ rest.1, rest.2)
      else if condNoZone toks ptr then
        let rest := scanFromF fuel toks (ptr + 4)
        (noZoneRowBag toks ptr ++ rest.1, rest.2)
      else if condOver toks ptr then
        let rest := scanFromF fuel toks (ptr + 3)
        (rest.1, overRow toks ptr ++ rest.2)
      else scanFromF fuel toks (ptr + 1)
    else ([], [])

/-- Scan the token list of one data line from the start. -/
def scanToks (toks : List String) : List Bag × List (String × Nat) :=
  scanFromF toks.length toks 0

/-- Bags contributed by the loop iteration at `ptr` (matches the branch
structure of `scanFromF`). -/
def scanStepBags (toks : List String) (ptr : Nat) : List Bag :=
  if condFull toks ptr then fullRowBag toks ptr
  else if condNoZone toks ptr then noZoneRowBag toks ptr
  else []

/-- Overflow lines contributed by the loop iteration at `ptr`. -/
def scanStepOvers (toks : List String) (ptr : Nat) : List (String × Nat) :=
  if condFull toks ptr then []
  else if condNoZone toks ptr then []
  else if condOver toks ptr then overRow toks ptr
  else []

/-- Sort key relation of `bags.sort(key=lambda b: b.get("idx", 10**6))`
(line 318); `idx` is always present on the records this parser builds. -/
instance : DecidableRel (fun a b : Bag => a.idx ≤ b.idx) := fun a b => Nat.decLe a.idx b.idx

instance : IsTotal Bag (fun a b => a.idx ≤ b.idx) := ⟨fun a b => Nat.le_total a.idx b.idx⟩

instance : IsTrans Bag (fun a b => a.idx ≤ b.idx) := ⟨fun _ _ _ h1 h2 => Nat.le_trans h1 h2⟩

/-- The bag/overflow-table portion of `parse_route_page` (lines 238-333):
header-line detection, per-line token scan, the `if not bags: return None`
outcome, and the final stable sort by printed index (Python `list.sort` is
stable, as is `List.insertionSort`).  The route-metadata fields of the result
tuple (style, wave time, declared counts, package summaries) do not influence
the bags or overflow lines and are not modelled, since no claim depends on
them. -/
def parse_route_bags (text : String) : Option (List Bag × List (String × Nat)) :=
  match (pySplitlines text).findIdx? (fun l => containsSub "Sort Zone Bag Pkgs" l) with
  | none => none
  | some hdrIdx =>
    let data_lines :=
      (((pySplitlines text).drop (hdrIdx + 1)).map (fun l => String.mk (pyStrip l.toList))).filter
        (fun l => !l.isEmpty)
    let scanned := data_lines.map (fun ln =>
      if isPrefixOfL "Total Packages".toList ln.toList ||
          isPrefixOfL "Commercial Packages".toList ln.toList then ([], [])
      else scanToks (pyWords ln))
    let bags := (scanned.map Prod.fst).flatten
    let overs := (scanned.map Prod.snd).flatten
    if bags.isEmpty then none
    else some (List.insertionSort (fun a b => a.idx ≤ b.idx) bags, overs)

/-- Match of `_RE_STG = \bSTG\.[A-Z]\.\d+\b` (case-insensitive, line 905) at
one position; `prev` is the character before the position (`none` at the
start of the string). -/
def stgMatchAt (prev : Option Char) (cs : List Char) : Bool :=
  match cs with
  | c1 :: c2 :: c3 :: c4 :: c5 :: c6 :: tail =>
    (match prev with | none => true | some p => !isWordChar p) &&
    (c1.toLower == 's') && (c2.toLower == 't') && (c3.toLower == 'g') &&
    (c4 == '.') && c5.isAlpha && (c6 == '.') &&
    (let ds := tail.takeWhile Char.isDigit
     !ds.isEmpty &&
       (match tail.dropWhile Char.isDigit with
        | [] => true
        | d :: _ => !isWordChar d))
  | _ => false

/-- Match of `_RE_CX = \b(?:CX|TX)\d+\b` (case-insensitive, line 906) at one
position. -/
def cxMatchAt (prev : Option Char) (cs : List Char) : Bool :=
  match cs with
  | c1 :: c2 :: tail =>
    (match prev with | none => true | some p => !isWordChar p) &&
    (c1.toLower == 'c' || c1.toLower == 't') && (c2.toLower == 'x') &&
    (let ds := tail.takeWhile Char.isDigit
     !ds.isEmpty &&
       (match tail.dropWhile Char.isDigit with
        | [] => true
        | d :: _ => !isWordChar d))
  | _ => false

/-- Match of `_RE_BAGS = \b(\d+)\s+bags\b` (case-insensitive, line 907) at one
position. -/
def bagsMatchAt (prev : Option Char) (cs : List Char) : Bool :=
  (match prev with | none => true | some p => !isWordChar p) &&
  (let ds := cs.takeWhile Char.isDigit
   !ds.isEmpty &&
   (let r1 := cs.dropWhile Char.isDigit
    let ws := r1.takeWhile pyIsSpace
    !ws.isEmpty &&
    (match r1.dropWhile pyIsSpace with
     | b :: a :: g :: s :: rest2 =>
       (b.toLower == 'b') && (a.toLower == 'a') && (g.toLower == 'g') && (s.toLower == 's') &&
       (match rest2 with | [] => true | d :: _ => !isWordChar d)
     | _ => false)))

/-- `re.search`: try the position matcher at every start position. -/
def scanMatch (f : Option Char → List Char → Bool) : Option Char → List Char → Bool
  | prev, [] => f prev []
  | prev, c :: rest => f prev (c :: rest) || scanMatch f (some c) rest

/-- `_is_header_page` (lines 909-911): the text contains both a route-stage
token and a customer-code token. -/
def is_header_page (t : String) : Bool :=
  scanMatch stgMatchAt none t.toList && scanMatch cxMatchAt none t.toList

/-- `_is_tableish_page` (lines 913-915). -/
def is_tableish_page (t : String) : Bool :=
  containsSub "Sort Zone Bag" t || containsSub "Sort Zone Pkgs" t ||
    scanMatch bagsMatchAt none t.toList

/-- The inner absorption loop of `_group_pages` (lines 924-926): take
non-header pages that are table-ish or blank; returns the absorbed indices,
the remaining pages and the next absolute index. -/
def absorbGroup : List String → Nat → List Nat × List String × Nat
  | [], i => ([], [], i)
  | t :: rest, i =>
    if !is_header_page t && (is_tableish_page t || (pyStrip t.toList).isEmpty) then
      let r := absorbGroup rest (i + 1)
      (i :: r.1, r.2.1, r.2.2)
    else ([], t :: rest, i)

/-- The outer loop of `_group_pages` (lines 917-930), fuelled by the page
count: every iteration consumes at least the current page. -/
def groupFuel : Nat → List String → Nat → List (List Nat)
  | 0, _, _ => []
  | _, [], _ => []
  | fuel + 1, t :: rest, i =>
    if is_header_page t then
      let r := absorbGroup rest (i + 1)
      (i :: r.1) :: groupFuel fuel r.2.1 r.2.2
    else groupFuel fuel rest (i + 1)

/-- `_group_pages` (lines 917-930). -/
def group_pages (page_texts : List String) : List (List Nat) :=
  groupFuel page_texts.length page_texts 0

/-- The grouping stage of `build_stacked_pdf_with_summary_grouped`
(lines 1492-1494): group the extracted page texts and raise
`RuntimeError("No header pages detected (no STG.* + CX*).")` when no group was
found.  The raise happens before any route is parsed or rendered and before
any output file is written; `Except.error` models that no output exists.  The
function body contains no retry of this failure. -/
def build_group_stage (page_texts : List String) : Except String (List (List Nat)) :=
  let groups := group_pages page_texts
  if groups.isEmpty then Except.error "No header pages detected (no STG.* + CX*)."
  else Except.ok groups

/-- Column count of the tote grid: `cols = max(1, math.ceil(n / ROWS_GRID))`
with `ROWS_GRID = 3` (`draw_tote`, line 502); `(n + 2) / 3` is the exact value
of `math.ceil(n / 3)`. -/
def tote_cols (n : Nat) : Nat := max 1 ((n + 2) / 3)

/-- Fill order of the tote grid (`draw_tote`, lines 521-525):
`for col in range(cols - 1, -1, -1): for row in range(ROWS_GRID)` — rightmost
column first, top to bottom inside a column.  Tile `i` of the route is drawn
at `positions[i]`. -/
def tote_positions (cols : Nat) : List (Nat × Nat) :=
  ((List.range cols).reverse).flatMap (fun col => (List.range 3).map (fun row => (col, row)))

/-- The mismatch payload built on lines 1542-1552 (the rendering-only fields
`title` and `output_page` are omitted). -/
structure MismatchPayload where
  declared_overflow : Option Nat
  computed_overflow : Nat
  declared_total : Option Nat
  computed_total : Nat
  overflow_mismatch : Bool
  total_mismatch : Bool
deriving DecidableEq

/-- The per-route verification slice of `build_stacked_pdf_with_summary_grouped`
(lines 1532-1552): run the overflow assignment, compute
`computed_overflow_total` (line 1536 sums the integer totals — the
`str(t).strip() != ""` filter never excludes an int) and
`sum_plus_overflow = bag_pk_total + computed_overflow_total`, derive the two
mismatch flags, and build the payload appended to the `mismatches` list
exactly when either flag holds (lines 1542-1552, 1608-1610). -/
def route_verification (bags : List Bag) (overs : List (String × Nat))
    (decl_over total_pkgs : Option Nat) : Option (Option MismatchPayload) :=
  (assign_overflows bags overs).map fun tp =>
    let bag_pk_total := (bags.map Bag.pkgs).sum
    let computed_overflow_total := tp.2.sum
    let sum_plus_overflow := bag_pk_total + computed_overflow_total
    let overflow_mismatch := decl_over.any fun d => d != computed_overflow_total
    let total_mismatch := total_pkgs.any fun t => t != sum_plus_overflow
    if overflow_mismatch || total_mismatch then
      some ⟨decl_over, computed_overflow_total, total_pkgs, sum_plus_overflow,
        overflow_mismatch, total_mismatch⟩
    else none

/-- Modelled from the amended wording of the pairing rule, for comparison with
`chooseBag`: the pair preference is one-directional (only a letter that is the
second member of a pair, looked up through INVERSE_PAIR, prefers the first bag
carrying the first member); then the first same-letter bag; then the
last-assigned bag; then bag 0 when any bag exists. -/
def chooseBagSpec (bags : List Bag) (last : Option Nat) (core : String) (L : Char) :
    Option Nat :=
  (match dictGet INVERSE_PAIR L with
   | some need => bags.findIdx? (fun b => zoneKeyOf b == some (core, need))
   | none => none).orElse fun _ =>
  (bags.findIdx? (fun b => zoneKeyOf b == some (core, L))).orElse fun _ =>
  last.orElse fun _ => if bags.isEmpty then none else some 0

end RouteStacker

namespace RouteStacker

lemma toList_eq_nil_iff (z : String) : z.toList = [] ↔ z = "" := by
  cases z with
  | mk d =>
    constructor
    · intro h
      simp only [String.toList] at h
      subst h
      rfl
    · intro h
      rw [h]
      rfl

lemma takeWhile_append_all {α} (p : α → Bool) {l1 : List α} (l2 : List α)
    (h : ∀ a ∈ l1, p a = true) : (l1 ++ l2).takeWhile p = l1 ++ l2.takeWhile p := by
  induction l1 with
  | nil => simp
  | cons a t ih =>
    have ha : p a = true := h a (List.mem_cons_self a t)
    simp only [List.cons_append, List.takeWhile_cons, ha, if_true]
    rw [ih fun x hx => h x (List.mem_cons_of_mem a hx)]

lemma dropWhile_append_all {α} (p : α → Bool) {l1 : List α} (l2 : List α)
    (h : ∀ a ∈ l1, p a = true) : (l1 ++ l2).dropWhile p = l2.dropWhile p := by
  induction l1 with
  | nil => simp
  | cons a t ih =>
    have ha : p a = true := h a (List.mem_cons_self a t)
    simp only [List.cons_append, List.dropWhile_cons, ha, if_true]
    exact ih fun x hx => h x (List.mem_cons_of_mem a hx)

/-- C7 counterexample: the unprefixed token "16.2U" splits to core "16.2",
but the prefixed token "A-16.2U" splits to core "A-16.2" — the claim that the
leading letter prefix is stripped (so that both share core "16.2") is false:
`split_zone_for_index` keeps the prefix inside the core. -/
theorem split_zone_keeps_dash_core :
    split_zone_for_index "16.2U" = some ("16.2", 'U') ∧
    split_zone_for_index "A-16.2U" = some ("A-16.2", 'U') ∧
    (("A-16.2" : String), 'U') ≠ (("16.2" : String), 'U') := by
  refine ⟨by decide, by decide, by decide⟩

/-- C7 amended: for a zone token `pre ++ "-" ++ num ++ letters` (no dash in
`pre`, `num` over `[0-9.]`, `letters` uppercase and non-empty), the split
keeps the prefix: core is `pre ++ "-" ++ num` (just `pre` when `num` is
empty), and the letter is the LAST letter of the token. -/
theorem split_zone_amended (p num ls : List Char) (c : Char)
    (hp : p.all (fun a => a != '-') = true)
    (hnum : num.all isDigitDot = true)
    (hls : (ls ++ [c]).all (fun d => d.isUpper && !isDigitDot d) = true) :
    split_zone_for_index (String.mk (p ++ '-' :: (num ++ (ls ++ [c])))) =
      some (String.mk (if num.isEmpty then p else p ++ '-' :: num), c) := by
  have hcont : (p ++ '-' :: (num ++ (ls ++ [c]))).contains '-' = true := by
    simp [List.elem_eq_mem]
  have hp' : ∀ a ∈ p, (a != '-') = true := by
    intro a ha
    exact (List.all_eq_true.mp hp) a ha
  have htake : (p ++ '-' :: (num ++ (ls ++ [c]))).takeWhile (fun a => a != '-') = p := by
    rw [takeWhile_append_all _ _ hp']
    simp [List.takeWhile_cons]
  have hdrop : (p ++ '-' :: (num ++ (ls ++ [c]))).dropWhile (fun a => a != '-') =
      '-' :: (num ++ (ls ++ [c])) := by
    rw [dropWhile_append_all _ _ hp']
    simp [List.dropWhile_cons]
  have hnum' : ∀ a ∈ num, isDigitDot a = true := fun a ha => (List.all_eq_true.mp hnum) a ha
  have hls' : ∀ d ∈ ls ++ [c], (d.isUpper && !isDigitDot d) = true :=
    fun d hd => (List.all_eq_true.mp hls) d hd
  have hlsUp : (ls ++ [c]).all Char.isUpper = true := by
    rw [List.all_eq_true]
    intro d hd
    exact (Bool.and_elim_left (hls' d hd))
  have hheadNot : ∀ d ∈ ls ++ [c], isDigitDot d = false := by
    intro d hd
    have := Bool.and_elim_right (hls' d hd)
    simpa using this
  have htake2 : (num ++ (ls ++ [c])).takeWhile isDigitDot = num := by
    rw [takeWhile_append_all _ _ hnum']
    cases hlc : ls ++ [c] with
    | nil => simp at hlc
    | cons d t =>
      have : isDigitDot d = false := by
        apply hheadNot
        rw [hlc]
        exact List.mem_cons_self d t
      simp [List.takeWhile_cons, this]
  have hdrop2 : (num ++ (ls ++ [c])).dropWhile isDigitDot = ls ++ [c] := by
    rw [dropWhile_append_all _ _ hnum']
    cases hlc : ls ++ [c] with
    | nil => simp at hlc
    | cons d t =>
      have hd : isDigitDot d = false := by
        apply hheadNot
        rw [hlc]
        exact List.mem_cons_self d t
      rw [← hlc]
      rw [hlc, List.dropWhile_cons, hd]
      simp
  have hsplitre : splitReMatch (num ++ (ls ++ [c])) = some (num, c) := by
    unfold splitReMatch
    simp only [htake2, hdrop2]
    have hne : (ls ++ [c]).isEmpty = false := by
      simp
    simp only [hne, Bool.false_eq_true, if_false, hlsUp, if_true]
    simp [List.getLastD_concat]
  unfold split_zone_for_index
  simp only [toList_eq_nil_iff] at *
  have htl : (String.mk (p ++ '-' :: (num ++ (ls ++ [c])))).toList =
      p ++ '-' :: (num ++ (ls ++ [c])) := rfl
  simp only [htl, hcont, if_true, hdrop, List.tail_cons, hsplitre, htake]

/-- C7 witness: instantiates the amended split statement at "A-16.2U". -/
theorem split_zone_amended_witness :
    split_zone_for_index (String.mk (['A'] ++ '-' :: (['1', '6', '.', '2'] ++ ([] ++ ['U'])))) =
      some (String.mk (if (['1', '6', '.', '2'] : List Char).isEmpty then ['A']
        else ['A'] ++ '-' :: ['1', '6', '.', '2']), 'U') :=
  split_zone_amended ['A'] ['1', '6', '.', '2'] [] 'U' (by decide) (by decide) (by decide)

lemma tote_positions_eq (cols : Nat) :
    tote_positions cols = (List.range (3 * cols)).map (fun i => (cols - 1 - i / 3, i % 3)) := by
  induction cols with
  | zero => rfl
  | succ c ih =>
    have h1 : tote_positions (c + 1) =
        [(c, 0), (c, 1), (c, 2)] ++ tote_positions c := by
      unfold tote_positions
      rw [List.range_succ, List.reverse_append]
      rfl
    have h3 : 3 * (c + 1) = 3 + 3 * c := by omega
    rw [h1, ih, h3, List.range_add, List.map_append, List.map_map]
    congr 1
    apply List.map_congr_left
    intro i _
    simp only [Function.comp, Prod.mk.injEq]
    omega

/-- C8: for a route with `n ≥ 1` bags the tote grid has `ceil(n/3)` columns
(the `max 1` is redundant there), and tile `i` (0-based, bags in sorted
order) is placed at column `cols - 1 - i / 3` and row `i % 3`: the rightmost
column is filled first, top-to-bottom, with the column index decreasing as
the fill progresses. -/
theorem tote_grid_layout (n : Nat) (hn : 1 ≤ n) :
    tote_cols n = (n + 2) / 3 ∧
    ∀ i, i < n →
      (tote_positions (tote_cols n))[i]? = some (tote_cols n - 1 - i / 3, i % 3) := by
  have hcols : tote_cols n = (n + 2) / 3 := by
    unfold tote_cols
    omega
  refine ⟨hcols, ?_⟩
  intro i hi
  have hlt : i < 3 * tote_cols n := by
    rw [hcols]
    omega
  rw [tote_positions_eq, List.getElem?_map, List.getElem?_range hlt]
  rfl

/-- C8 witness: 45 bags give `ceil(45/3) = 15` columns and, e.g., tile 10
lands in column 11, row 1. -/
theorem tote_grid_layout_witness :
    tote_cols 45 = (45 + 2) / 3 ∧
    (tote_positions (tote_cols 45))[10]? = some (tote_cols 45 - 1 - 10 / 3, 10 % 3) :=
  ⟨(tote_grid_layout 45 (by decide)).1, (tote_grid_layout 45 (by decide)).2 10 (by decide)⟩

lemma scanFromF_out_of_range (fuel : Nat) (toks : List String) (ptr : Nat)
    (h : ¬ ptr < toks.length) : scanFromF fuel toks ptr = ([], []) := by
  cases fuel with
  | zero => rfl
  | succ f => simp [scanFromF, h]

lemma scanFromF_fuel_irrel (toks : List String) :
    ∀ f1 f2 ptr, toks.length - ptr ≤ f1 → toks.length - ptr ≤ f2 →
      scanFromF f1 toks ptr = scanFromF f2 toks ptr := by
  intro f1
  induction f1 with
  | zero =>
    intro f2 ptr h1 _
    have hout : ¬ ptr < toks.length := by omega
    rw [scanFromF_out_of_range _ _ _ hout, scanFromF_out_of_range _ _ _ hout]
  | succ f ih =>
    intro f2 ptr h1 h2
    by_cases hin : ptr < toks.length
    · have hf2 : ∃ g, f2 = g + 1 := by
        cases f2 with
        | zero => omega
        | succ g => exact ⟨g, rfl⟩
      obtain ⟨g, rfl⟩ := hf2
      simp only [scanFromF, hin, if_true]
      by_cases c1 : condFull toks ptr
      · simp only [c1, if_true]
        rw [ih g (ptr + 5) (by omega) (by omega)]
      · by_cases c2 : condNoZone toks ptr
        · simp only [c1, c2, if_true, Bool.false_eq_true, if_false]
          rw [ih g (ptr + 4) (by omega) (by omega)]
        · by_cases c3 : condOver toks ptr
          · simp only [c1, c2, c3, if_true, Bool.false_eq_true, if_false]
            rw [ih g (ptr + 3) (by omega) (by omega)]
          · simp only [c1, c2, c3, Bool.false_eq_true, if_false]
            exact ih g (ptr + 1) (by omega) (by omega)
    · rw [scanFromF_out_of_range _ _ _ hin, scanFromF_out_of_range _ _ _ hin]

/-- C10: the token-scanning loop of `parse_route_page` is total.  At every
in-range pointer the advance is 5, 4, 3 or 1 tokens (hence at least one); one
loop iteration contributes `scanStepBags`/`scanStepOvers` and continues at
`ptr + scanAdvance`; and the fuelled loop is fuel-independent as soon as the
fuel covers the remaining tokens — the loop value is well defined for every
input. -/
theorem scan_loop_terminates (toks : List String) (ptr : Nat) (h : ptr < toks.length) :
    (scanAdvance toks ptr = 5 ∨ scanAdvance toks ptr = 4 ∨ scanAdvance toks ptr = 3 ∨
      scanAdvance toks ptr = 1) ∧
    (∀ fuel, scanFromF (fuel + 1) toks ptr =
      ((scanStepBags toks ptr) ++ (scanFromF fuel toks (ptr + scanAdvance toks ptr)).1,
       (scanStepOvers toks ptr) ++ (scanFromF fuel toks (ptr + scanAdvance toks ptr)).2)) ∧
    (∀ f1 f2, toks.length - ptr ≤ f1 → toks.length - ptr ≤ f2 →
      scanFromF f1 toks ptr = scanFromF f2 toks ptr) := by
  refine ⟨?_, ?_, fun f1 f2 h1 h2 => scanFromF_fuel_irrel toks f1 f2 ptr h1 h2⟩
  · unfold scanAdvance
    by_cases c1 : condFull toks ptr
    · simp [c1]
    · by_cases c2 : condNoZone toks ptr
      · simp [c1, c2]
      · by_cases c3 : condOver toks ptr
        · simp [c1, c2, c3]
        · simp [c1, c2, c3]
  · intro fuel
    unfold scanAdvance scanStepBags scanStepOvers
    by_cases c1 : condFull toks ptr
    · simp [scanFromF, h, c1]
    · by_cases c2 : condNoZone toks ptr
      · simp [scanFromF, h, c1, c2]
      · by_cases c3 : condOver toks ptr
        · simp [scanFromF, h, c1, c2, c3]
        · simp [scanFromF, h, c1, c2, c3]

/-- C10 witness: on the zoneless bag row `1 Yellow 001 10` the pointer
advances by 4, and the loop value is fuel-independent. -/
theorem scan_loop_terminates_witness :
    (scanAdvance ["1", "Yellow", "001", "10"] 0 = 5 ∨
      scanAdvance ["1", "Yellow", "001", "10"] 0 = 4 ∨
      scanAdvance ["1", "Yellow", "001", "10"] 0 = 3 ∨
      scanAdvance ["1", "Yellow", "001", "10"] 0 = 1) ∧
    scanFromF 4 ["1", "Yellow", "001", "10"] 0 = scanFromF 9 ["1", "Yellow", "001", "10"] 0 :=
  ⟨(scan_loop_terminates ["1", "Yellow", "001", "10"] 0 (by decide)).1,
   (scan_loop_terminates ["1", "Yellow", "001", "10"] 0 (by decide)).2.2 4 9 (by decide) (by decide)⟩

lemma groupFuel_nil_of_no_header :
    ∀ (fuel : Nat) (pts : List String) (i : Nat),
      (∀ t ∈ pts, is_header_page t = false) → groupFuel fuel pts i = [] := by
  intro fuel
  induction fuel with
  | zero =>
    intro pts i _
    cases pts <;> rfl
  | succ f ih =>
    intro pts i h
    cases pts with
    | nil => rfl
    | cons t rest =>
      have ht : is_header_page t = false := h t (List.mem_cons_self t rest)
      simp only [groupFuel, ht, Bool.false_eq_true, if_false]
      exact ih rest (i + 1) fun x hx => h x (List.mem_cons_of_mem t hx)

/-- C5: when no page text is a header page (contains both a route-stage token
and a customer-code token), the grouping stage produces no groups and the
pipeline raises the fatal "no header pages" RuntimeError — modelled as
`Except.error` — before any route is parsed or rendered and before any output
file is written; the source contains no retry of this failure. -/
theorem no_header_fatal (page_texts : List String)
    (h : ∀ t ∈ page_texts, is_header_page t = false) :
    build_group_stage page_texts = Except.error "No header pages detected (no STG.* + CX*)." := by
  unfold build_group_stage group_pages
  rw [groupFuel_nil_of_no_header _ _ _ h]
  rfl

/-- C5 witness: two headerless pages (one even table-ish) abort the pipeline. -/
theorem no_header_fatal_witness :
    build_group_stage ["hello world", "Sort Zone Bag Pkgs 3 bags"] =
      Except.error "No header pages detected (no STG.* + CX*)." :=
  no_header_fatal ["hello world", "Sort Zone Bag Pkgs 3 bags"] (by decide)

lemma split_zone_isSome (z : String) (h : z ≠ "") : (split_zone_for_index z).isSome = true := by
  unfold split_zone_for_index
  by_cases hc : z.toList.contains '-' = true
  · simp only [hc, if_true]
    rcases hs : splitReMatch ((z.toList.dropWhile (fun c => c != '-')).tail) with _ | ⟨num, L⟩ <;>
      simp [hs]
  · simp only [Bool.not_eq_true] at hc
    simp only [hc, Bool.false_eq_true, if_false]
    cases hl : z.toList.getLast? with
    | none =>
      exact absurd ((toList_eq_nil_iff z).mp (List.getLast?_eq_none_iff.mp hl)) h
    | some c => simp

lemma chooseBag_exists (bags : List Bag) (last : Option Nat) (zone : String) (h : zone ≠ "") :
    ∃ bi, chooseBag bags last zone = some bi := by
  have hsp := split_zone_isSome zone h
  cases hs : split_zone_for_index zone with
  | none => rw [hs] at hsp; simp at hsp
  | some p =>
    obtain ⟨core, L⟩ := p
    unfold chooseBag
    rw [hs]
    exact ⟨_, rfl⟩

lemma bagIdxAux_mem_lt (core : String) (L : Char) :
    ∀ (bs : List Bag) (i x : Nat), x ∈ bagIdxAux core L i bs → x < i + bs.length := by
  intro bs
  induction bs with
  | nil => intro i x hx; simp [bagIdxAux] at hx
  | cons b t ih =>
    intro i x hx
    simp only [bagIdxAux] at hx
    by_cases hb : (zoneKeyOf b == some (core, L)) = true
    · rw [if_pos hb] at hx
      rcases List.mem_cons.mp hx with h1 | h2
      · subst h1
        simp only [List.length_cons]
        omega
      · have := ih (i + 1) x h2
        simp only [List.length_cons]
        omega
    · rw [if_neg hb] at hx
      have := ih (i + 1) x hx
      simp only [List.length_cons]
      omega

lemma bag_idx_list_mem_lt (bags : List Bag) (core : String) (L : Char) (x : Nat)
    (hx : x ∈ bag_idx_list bags core L) : x < bags.length := by
  have := bagIdxAux_mem_lt core L bags 0 x hx
  omega

lemma bag_idx_list_head? (bags : List Bag) (core : String) (L : Char) :
    (bag_idx_list bags core L).head? =
      bags.findIdx? (fun b => zoneKeyOf b == some (core, L)) := by
  have key : ∀ (bs : List Bag) (i : Nat),
      (bagIdxAux core L i bs).head? =
        bs.findIdx? (fun b => zoneKeyOf b == some (core, L)) i := by
    intro bs
    induction bs with
    | nil => intro i; rfl
    | cons b t ih =>
      intro i
      simp only [bagIdxAux, List.findIdx?_cons]
      by_cases hb : (zoneKeyOf b == some (core, L)) = true
      · simp [hb]
      · simp only [Bool.not_eq_true] at hb
        simp [hb, ih]
  exact key bags 0

lemma chooseBag_bound (bags : List Bag) (last : Option Nat) (zone : String) (bi : Option Nat)
    (hb : bags ≠ []) (hlast : ∀ j, last = some j → j < bags.length)
    (h : chooseBag bags last zone = some bi) :
    ∃ i, bi = some i ∧ i < bags.length := by
  have hlen : 0 < bags.length := List.length_pos.mpr hb
  unfold chooseBag at h
  cases hs : split_zone_for_index zone with
  | none => rw [hs] at h; exact absurd h (by simp)
  | some p =>
    obtain ⟨core, L⟩ := p
    rw [hs] at h
    simp only [Option.some.injEq] at h
    subst h
    by_cases h99 : is_99_tag (labelCore zone) = true
    · simp only [h99, if_true]
      cases last with
      | none =>
        have hne : (bags.length != 0) = true := by
          simp only [bne_iff_ne, ne_eq]
          omega
        simp only [hne, if_true]
        exact ⟨0, rfl, hlen⟩
      | some j => exact ⟨j, rfl, hlast j rfl⟩
    · simp only [Bool.not_eq_true] at h99
      simp only [h99, Bool.false_eq_true, if_false]
      have fallback : ∃ i,
          (match last with
           | some j => some j
           | none => if !bags.isEmpty then some 0 else none) = some i ∧ i < bags.length := by
        cases last with
        | some j => exact ⟨j, rfl, hlast j rfl⟩
        | none =>
          have hne : (!bags.isEmpty) = true := by
            cases bags with
            | nil => exact absurd rfl hb
            | cons x t => rfl
          simp only [hne, if_true]
          exact ⟨0, rfl, hlen⟩
      cases hd : dictGet INVERSE_PAIR L with
      | some need =>
        cases hbl : bag_idx_list bags core need with
        | cons i t =>
          simp only [hbl]
          refine ⟨i, rfl, ?_⟩
          exact bag_idx_list_mem_lt bags core need i (by rw [hbl]; exact List.mem_cons_self i t)
        | nil =>
          simp only [hbl]
          cases hbl2 : bag_idx_list bags core L with
          | cons i t =>
            simp only [hbl2]
            refine ⟨i, rfl, ?_⟩
            exact bag_idx_list_mem_lt bags core L i (by rw [hbl2]; exact List.mem_cons_self i t)
          | nil =>
            simp only [hbl2]
            exact fallback
      | none =>
        cases hbl2 : bag_idx_list bags core L with
        | cons i t =>
          simp only [hbl2]
          refine ⟨i, rfl, ?_⟩
          exact bag_idx_list_mem_lt bags core L i (by rw [hbl2]; exact List.mem_cons_self i t)
        | nil =>
          simp only [hbl2]
          exact fallback

lemma sum_set_getD (l : List Nat) :
    ∀ i, i < l.length → ∀ v, (l.set i (l.getD i 0 + v)).sum = l.sum + v := by
  induction l with
  | nil => intro i hi; simp at hi
  | cons a t ih =>
    intro i hi v
    cases i with
    | zero => simp [List.sum_cons]; omega
    | succ n =>
      simp only [List.set_cons_succ, List.getD_cons_succ, List.sum_cons]
      have := ih n (by simp at hi; omega) v
      omega

lemma sumLens_set (l : List (List String)) :
    ∀ i, i < l.length → ∀ x, sumLens (l.set i (l.getD i [] ++ [x])) = sumLens l + 1 := by
  induction l with
  | nil => intro i hi; simp at hi
  | cons a t ih =>
    intro i hi x
    cases i with
    | zero => simp [sumLens, List.sum_cons]; omega
    | succ n =>
      simp only [List.set_cons_succ, List.getD_cons_succ, sumLens, List.map_cons, List.sum_cons]
      have := ih n (by simp at hi; omega) x
      simp only [sumLens] at this
      omega

lemma assignStep_some_char (bags : List Bag) (st : OvState) (line : String × Nat) (st1 : OvState)
    (hb : bags ≠ []) (hlast : ∀ j, st.last = some j → j < bags.length)
    (hT : st.texts.length = bags.length) (hTo : st.totals.length = bags.length)
    (h : assignStep bags st line = some st1) :
    (∀ j, st1.last = some j → j < bags.length) ∧
    st1.texts.length = bags.length ∧ st1.totals.length = bags.length ∧
    st1.totals.sum = st.totals.sum + line.2 ∧ sumLens st1.texts = sumLens st.texts + 1 := by
  unfold assignStep at h
  cases hc : chooseBag bags st.last line.1 with
  | none => rw [hc] at h; simp at h
  | some bi =>
    rw [hc] at h
    obtain ⟨i, hbi, hilt⟩ := chooseBag_bound bags st.last line.1 bi hb hlast hc
    subst hbi
    simp only [Option.map_some', Option.some.injEq] at h
    subst h
    refine ⟨?_, ?_, ?_, ?_, ?_⟩
    · intro j hj
      simp only [Option.some.injEq] at hj
      omega
    · simp [hT]
    · simp [hTo]
    · exact sum_set_getD st.totals i (hTo ▸ hilt) line.2
    · exact sumLens_set st.texts i (hT ▸ hilt) _

lemma assign_fold (bags : List Bag) (hb : bags ≠ []) :
    ∀ (overs : List (String × Nat)) (st st' : OvState),
      List.foldlM (assignStep bags) st overs = some st' →
      (∀ j, st.last = some j → j < bags.length) →
      st.texts.length = bags.length → st.totals.length = bags.length →
      (∀ j, st'.last = some j → j < bags.length) ∧
      st'.texts.length = bags.length ∧ st'.totals.length = bags.length ∧
      st'.totals.sum = st.totals.sum + (overs.map Prod.snd).sum ∧
      sumLens st'.texts = sumLens st.texts + overs.length := by
  intro overs
  induction overs with
  | nil =>
    intro st st' h hlast hT hTo
    simp only [List.foldlM_nil, pure, Option.some.injEq] at h
    subst h
    exact ⟨hlast, hT, hTo, by simp, by simp⟩
  | cons a t ih =>
    intro st st' h hlast hT hTo
    rw [List.foldlM_cons] at h
    cases hstep : assignStep bags st a with
    | none => rw [hstep] at h; exact absurd h (by simp [Option.bind])
    | some st1 =>
      rw [hstep] at h
      simp only [Option.bind_eq_bind, Option.some_bind] at h
      obtain ⟨hl1, hT1, hTo1, hs1, hsl1⟩ := assignStep_some_char bags st a st1 hb hlast hT hTo hstep
      obtain ⟨hl2, hT2, hTo2, hs2, hsl2⟩ := ih st1 st' h hl1 hT1 hTo1
      refine ⟨hl2, hT2, hTo2, ?_, ?_⟩
      · simp only [List.map_cons, List.sum_cons]
        omega
      · simp only [List.length_cons]
        omega

lemma assign_fold_isSome (bags : List Bag) :
    ∀ (overs : List (String × Nat)), (∀ p ∈ overs, p.1 ≠ "") →
      ∀ st, ∃ st', List.foldlM (assignStep bags) st overs = some st' := by
  intro overs
  induction overs with
  | nil => intro _ st; exact ⟨st, rfl⟩
  | cons a t ih =>
    intro hz st
    obtain ⟨bi, hbi⟩ := chooseBag_exists bags st.last a.1 (hz a (List.mem_cons_self a t))
    have hstep : ∃ st1, assignStep bags st a = some st1 := by
      unfold assignStep
      rw [hbi]
      exact ⟨_, rfl⟩
    obtain ⟨st1, hst1⟩ := hstep
    obtain ⟨st', hst'⟩ := ih (fun p hp => hz p (List.mem_cons_of_mem a hp)) st1
    refine ⟨st', ?_⟩
    rw [List.foldlM_cons, hst1]
    simpa using hst'

lemma map_zero_sum (bags : List Bag) : ((bags.map fun _ => (0 : Nat))).sum = 0 := by
  induction bags with
  | nil => rfl
  | cons b t ih => simp [ih]

lemma sumLens_init (bags : List Bag) : sumLens (bags.map fun _ => ([] : List String)) = 0 := by
  induction bags with
  | nil => rfl
  | cons b t ih =>
    simp only [List.map_cons, sumLens, List.sum_cons, List.length_nil]
    simp only [sumLens] at ih
    omega

/-- C1 amended: for every non-empty `bags` list and every `overflow_lines`
list whose zone tokens are non-empty strings (every token of the parser's
zone grammar is non-empty), `assign_overflows` succeeds, the returned texts
and totals are index-aligned with `bags`, the totals sum to the sum of all
overflow counts, and exactly one text string is appended per overflow line.
The restriction to non-empty zone tokens is forced by
`assign_overflows_raises_on_empty_zone`: on a line with zone `""` the zone
split raises IndexError instead of placing the line. -/
theorem assign_overflows_total_amended (bags : List Bag) (overs : List (String × Nat))
    (hb : bags ≠ []) (hz : ∀ p ∈ overs, p.1 ≠ "") :
    ∃ texts totals, assign_overflows bags overs = some (texts, totals) ∧
      texts.length = bags.length ∧ totals.length = bags.length ∧
      totals.sum = (overs.map Prod.snd).sum ∧ sumLens texts = overs.length := by
  obtain ⟨st', hst⟩ :=
    assign_fold_isSome bags overs hz ⟨bags.map (fun _ => []), bags.map (fun _ => 0), none⟩
  have props := assign_fold bags hb overs _ st' hst (by intro j hj; simp at hj)
    (by simp) (by simp)
  refine ⟨st'.texts, st'.totals, ?_, props.2.1, props.2.2.1, ?_, ?_⟩
  · unfold assign_overflows
    rw [hst]
    rfl
  · have := props.2.2.2.1
    rw [map_zero_sum] at this
    omega
  · have := props.2.2.2.2
    rw [sumLens_init] at this
    omega

/-- C1 counterexample: `assign_overflows` is not total on every
`overflow_lines` list — a line whose zone is the empty string makes
`split_zone_for_index` evaluate `z[-1]` on `""`, raising IndexError
(modelled by `none`), so the claim "the function never raises" is false. -/
theorem assign_overflows_raises_on_empty_zone :
    assign_overflows [⟨1, none, "Yellow 001", 10⟩] [("", 5)] = none := by decide

/-- C1 witness: the spec §8 scenario — one zoneless bag and the unmatched
overflow line ("A-16.2U", 5). -/
theorem assign_overflows_total_witness :
    ∃ texts totals,
      assign_overflows [⟨1, none, "Yellow 001", 10⟩] [("A-16.2U", 5)] = some (texts, totals) ∧
      texts.length = ([⟨1, none, "Yellow 001", 10⟩] : List Bag).length ∧
      totals.length = ([⟨1, none, "Yellow 001", 10⟩] : List Bag).length ∧
      totals.sum = ([("A-16.2U", 5)].map (Prod.snd (α := String))).sum ∧
      sumLens texts = [("A-16.2U", 5)].length :=
  assign_overflows_total_amended [⟨1, none, "Yellow 001", 10⟩] [("A-16.2U", 5)]
    (by decide) (by decide)

lemma chooseBag_empty_none (last : Option Nat) (zone : String) (hz : zone ≠ "")
    (hl : last = none) : chooseBag [] last zone = some none := by
  subst hl
  have hsp := split_zone_isSome zone hz
  cases hs : split_zone_for_index zone with
  | none => rw [hs] at hsp; simp at hsp
  | some p =>
    obtain ⟨core, L⟩ := p
    unfold chooseBag
    rw [hs]
    by_cases h99 : is_99_tag (labelCore zone) = true
    · simp [h99]
    · simp only [Bool.not_eq_true] at h99
      have hbl : ∀ L', bag_idx_list [] core L' = [] := fun _ => rfl
      cases hd : dictGet INVERSE_PAIR L with
      | some need => simp [h99, hd, hbl]
      | none => simp [h99, hd, hbl]

/-- C9 amended: with an empty bags list, `assign_overflows` returns two empty
lists for every overflow list whose zone tokens are non-empty — every line is
silently discarded.  The restriction is forced by
`assign_overflows_empty_bags_raises`: an empty zone token still raises
IndexError inside the zone split, before the empty-bags fallback is reached. -/
theorem assign_overflows_empty_bags_amended (overs : List (String × Nat))
    (hz : ∀ p ∈ overs, p.1 ≠ "") :
    assign_overflows [] overs = some ([], []) := by
  have key : ∀ (os : List (String × Nat)), (∀ p ∈ os, p.1 ≠ "") →
      List.foldlM (assignStep []) (⟨[], [], none⟩ : OvState) os =
        some (⟨[], [], none⟩ : OvState) := by
    intro os
    induction os with
    | nil => intro _; rfl
    | cons a t ih =>
      intro h
      rw [List.foldlM_cons]
      have hc := chooseBag_empty_none none a.1 (h a (List.mem_cons_self a t)) rfl
      have hstep : assignStep [] (⟨[], [], none⟩ : OvState) a =
          some (⟨[], [], none⟩ : OvState) := by
        unfold assignStep
        rw [hc]
        rfl
      rw [hstep]
      simpa using ih (fun p hp => h p (List.mem_cons_of_mem a hp))
  unfold assign_overflows
  simp only [List.map_nil]
  rw [key overs hz]
  rfl

/-- C9 counterexample: with empty bags the function does not return for every
overflow list — an empty zone token raises IndexError (modelled by `none`)
inside `split_zone_for_index`, so "raises no exception for every
overflow_lines input" is false. -/
theorem assign_overflows_empty_bags_raises :
    assign_overflows [] [("", 5)] = none := by decide

/-- C9 witness: a normal unmappable line is silently discarded. -/
theorem assign_overflows_empty_bags_witness :
    assign_overflows [] [("A-1B", 5)] = some ([], []) :=
  assign_overflows_empty_bags_amended [("A-1B", 5)] (by decide)

/-- C2 amended: for a non-"99." overflow line decomposing to `(core, L)`, the
chosen bag follows the chain of `chooseBagSpec`: a pair preference exists only
when `L` is the second member of a pair (`INVERSE_PAIR`, i.e. one of
T, U, W, X, Y, Z, which prefers the first bag decomposing to `(core, first
member)`); letters A, B, C, D, E, G get no pair preference; then the first bag
decomposing to `(core, L)`; then the last-assigned bag; then bag 0 when any
bag exists.  The pairing is one-directional, not bidirectional. -/
theorem pairing_chain_amended (bags : List Bag) (last : Option Nat) (zone core : String)
    (L : Char) (hsplit : split_zone_for_index zone = some (core, L))
    (h99 : is_99_tag (labelCore zone) = false) :
    chooseBag bags last zone = some (chooseBagSpec bags last core L) := by
  unfold chooseBag chooseBagSpec
  rw [hsplit]
  simp only [h99, Bool.false_eq_true, if_false]
  cases hd : dictGet INVERSE_PAIR L with
  | some need =>
    have hfe : bags.findIdx? (fun b => zoneKeyOf b == some (core, need)) =
        (bag_idx_list bags core need).head? := (bag_idx_list_head? bags core need).symm
    cases hbl : bag_idx_list bags core need with
    | cons i t =>
      rw [hbl] at hfe
      simp only [hbl, hfe]
      rfl
    | nil =>
      rw [hbl] at hfe
      have hfe2 : bags.findIdx? (fun b => zoneKeyOf b == some (core, L)) =
          (bag_idx_list bags core L).head? := (bag_idx_list_head? bags core L).symm
      cases hbl2 : bag_idx_list bags core L with
      | cons i t =>
        rw [hbl2] at hfe2
        simp only [hbl, hbl2, hfe, hfe2]
        rfl
      | nil =>
        rw [hbl2] at hfe2
        simp only [hbl, hbl2, hfe, hfe2]
        cases last with
        | some j => rfl
        | none => cases bags <;> rfl
  | none =>
    have hfe2 : bags.findIdx? (fun b => zoneKeyOf b == some (core, L)) =
        (bag_idx_list bags core L).head? := (bag_idx_list_head? bags core L).symm
    cases hbl2 : bag_idx_list bags core L with
    | cons i t =>
      rw [hbl2] at hfe2
      simp only [hbl2, hfe2]
      rfl
    | nil =>
      rw [hbl2] at hfe2
      simp only [hbl2, hfe2]
      cases last with
      | some j => rfl
      | none => cases bags <;> rfl

/-- C2 counterexample: the claim's bidirectional pairing predicts that the
"A" line "Z-1A" prefers the paired "T" bag at index 0; the code instead
assigns it to the same-letter "A" bag at index 1, because
`INVERSE_PAIR.get("A")` is `None` (only T, U, W, X, Y, Z have pair
preference).  Bag 0 receives nothing. -/
theorem pairing_not_bidirectional :
    split_zone_for_index "Z-1A" = some ("Z-1", 'A') ∧
    zoneKeyOf ⟨1, some "Z-1T", "Yellow 001", 3⟩ = some ("Z-1", 'T') ∧
    assign_overflows [⟨1, some "Z-1T", "Yellow 001", 3⟩, ⟨2, some "Z-1A", "Green 002", 4⟩]
        [("Z-1A", 5)] = some ([[], ["1A (5)"]], [0, 5]) :=
  ⟨by decide, by decide, by decide⟩

/-- C2 witness: a "T" line does get the pair preference toward the "A" bag. -/
theorem pairing_chain_witness :
    chooseBag [⟨1, some "A-2A", "Yellow 001", 3⟩] none "A-2T" =
      some (chooseBagSpec [⟨1, some "A-2A", "Yellow 001", 3⟩] none "A-2" 'T') :=
  pairing_chain_amended [⟨1, some "A-2A", "Yellow 001", 3⟩] none "A-2T" "A-2" 'T'
    (by decide) (by decide)

/-- C3: for a non-empty bags list, an overflow line whose prefix-stripped
label starts with "99." attaches to bag 0 when no overflow line has been
assigned yet (`last = none`), and otherwise to the same bag as the
immediately preceding overflow line (`last_assigned_bag`, which the loop sets
to the bag of every line it assigns). -/
theorem tag99_continuity (bags : List Bag) (last : Option Nat) (zone : String)
    (hb : bags ≠ []) (hz : zone ≠ "") (h99 : is_99_tag (labelCore zone) = true) :
    chooseBag bags last zone = some (some (last.getD 0)) := by
  have hsp := split_zone_isSome zone hz
  cases hs : split_zone_for_index zone with
  | none => rw [hs] at hsp; simp at hsp
  | some p =>
    obtain ⟨core, L⟩ := p
    unfold chooseBag
    rw [hs]
    simp only [h99, if_true]
    cases last with
    | none =>
      have hlen : 0 < bags.length := List.length_pos.mpr hb
      have hne : (bags.length != 0) = true := by
        simp only [bne_iff_ne, ne_eq]
        omega
      simp [hne]
    | some j => rfl

/-- C3 witness: with one prior assignment (the "B" line goes to bag 1), two
consecutive "99.X" lines both attach to that same bag 1 — not to bag 0. -/
theorem tag99_continuity_witness :
    chooseBag [⟨1, some "A-1A", "Yellow 001", 1⟩, ⟨2, some "A-1B", "Green 002", 1⟩]
        (some 1) "99.X" = some (some 1) ∧
    assign_overflows [⟨1, some "A-1A", "Yellow 001", 1⟩, ⟨2, some "A-1B", "Green 002", 1⟩]
        [("A-1B", 2), ("99.X", 3), ("99.X", 4)] =
      some ([[], ["1B (2)", "99.X (3)", "99.X (4)"]], [0, 9]) :=
  ⟨tag99_continuity [⟨1, some "A-1A", "Yellow 001", 1⟩, ⟨2, some "A-1B", "Green 002", 1⟩]
      (some 1) "99.X" (by decide) (by decide) (by decide),
   by decide⟩

lemma opt_any_ne_iff (o : Option Nat) (k : Nat) :
    (o.any fun d => d != k) = true ↔ ∃ d, o = some d ∧ d ≠ k := by
  cases o <;> simp [Option.any]

/-- C4: for every route whose overflow assignment succeeds,
`overflow_mismatch` holds exactly when a declared overflow count exists and
differs from the computed overflow sum (which equals the sum of all overflow
counts), `total_mismatch` holds exactly when a declared total exists and
differs from the bag package sum plus the computed overflow sum, and the
mismatch payload — carrying the declared and computed values — is recorded
exactly when either flag holds. -/
theorem mismatch_detection (bags : List Bag) (overs : List (String × Nat))
    (decl_over total_pkgs : Option Nat) (res : Option MismatchPayload)
    (hb : bags ≠ [])
    (h : route_verification bags overs decl_over total_pkgs = some res) :
    (res.isSome = true ↔
      ((∃ d, decl_over = some d ∧ d ≠ (overs.map Prod.snd).sum) ∨
       (∃ t, total_pkgs = some t ∧
          t ≠ (bags.map Bag.pkgs).sum + (overs.map Prod.snd).sum))) ∧
    (∀ pl, res = some pl →
      pl.declared_overflow = decl_over ∧
      pl.computed_overflow = (overs.map Prod.snd).sum ∧
      pl.declared_total = total_pkgs ∧
      pl.computed_total = (bags.map Bag.pkgs).sum + (overs.map Prod.snd).sum ∧
      (pl.overflow_mismatch = true ↔ ∃ d, decl_over = some d ∧ d ≠ (overs.map Prod.snd).sum) ∧
      (pl.total_mismatch = true ↔ ∃ t, total_pkgs = some t ∧
          t ≠ (bags.map Bag.pkgs).sum + (overs.map Prod.snd).sum)) := by
  unfold route_verification at h
  cases ha : assign_overflows bags overs with
  | none => rw [ha] at h; simp at h
  | some tp =>
    rw [ha] at h
    simp only [Option.map_some', Option.some.injEq] at h
    have hsum : tp.2.sum = (overs.map Prod.snd).sum := by
      unfold assign_overflows at ha
      cases hf : List.foldlM (assignStep bags)
          (⟨bags.map (fun _ => []), bags.map (fun _ => 0), none⟩ : OvState) overs with
      | none => rw [hf] at ha; simp at ha
      | some st' =>
        rw [hf] at ha
        simp only [Option.map_some', Option.some.injEq] at ha
        have props := assign_fold bags hb overs _ st' hf (by intro j hj; simp at hj)
          (by simp) (by simp)
        have h2 := props.2.2.2.1
        rw [map_zero_sum] at h2
        rw [← ha]
        simpa using h2
    rw [hsum] at h
    subst h
    constructor
    · by_cases hov : (decl_over.any fun d => d != (overs.map Prod.snd).sum) = true
      · simp only [hov, Bool.true_or, if_true, Option.isSome_some, true_iff]
        exact Or.inl ((opt_any_ne_iff _ _).mp hov)
      · simp only [Bool.not_eq_true] at hov
        by_cases htm : (total_pkgs.any fun t =>
            t != ((bags.map Bag.pkgs).sum + (overs.map Prod.snd).sum)) = true
        · simp only [hov, htm, Bool.false_or, if_true, Option.isSome_some, true_iff]
          exact Or.inr ((opt_any_ne_iff _ _).mp htm)
        · simp only [Bool.not_eq_true] at htm
          simp only [hov, htm, Bool.or_self, Bool.false_eq_true, if_false,
            Option.isSome_none, false_iff]
          push_neg
          constructor
          · intro d hd
            have := (opt_any_ne_iff decl_over ((overs.map Prod.snd).sum)).not.mp
              (by rw [hov]; simp)
            push_neg at this
            exact this d hd
          · intro t ht
            have := (opt_any_ne_iff total_pkgs
                ((bags.map Bag.pkgs).sum + (overs.map Prod.snd).sum)).not.mp
              (by rw [htm]; simp)
            push_neg at this
            exact this t ht
    · intro pl hpl
      by_cases hcond : ((decl_over.any fun d => d != (overs.map Prod.snd).sum) ||
          (total_pkgs.any fun t =>
            t != ((bags.map Bag.pkgs).sum + (overs.map Prod.snd).sum))) = true
      · rw [if_pos hcond] at hpl
        simp only [Option.some.injEq] at hpl
        subst hpl
        refine ⟨rfl, rfl, rfl, rfl, ?_, ?_⟩
        · exact opt_any_ne_iff _ _
        · exact opt_any_ne_iff _ _
      · rw [if_neg hcond] at hpl
        exact absurd hpl (by simp)

/-- C4 witness: declared total 50, bag package sum 40, computed overflow sum
8 give `total_mismatch = true` with `computed_total = 48`, and the payload is
recorded. -/
theorem mismatch_detection_witness :
    route_verification [⟨1, some "A-1B", "Yellow 001", 40⟩] [("A-1B", 8)] none (some 50) =
      some (some ⟨none, 8, some 50, 48, false, true⟩) ∧
    ((some (⟨none, 8, some 50, 48, false, true⟩ : MismatchPayload)).isSome = true ↔
      ((∃ d, (none : Option Nat) = some d ∧
          d ≠ (([("A-1B", 8)] : List (String × Nat)).map Prod.snd).sum) ∨
       (∃ t, (some 50 : Option Nat) = some t ∧
          t ≠ (([⟨1, some "A-1B", "Yellow 001", 40⟩] : List Bag).map Bag.pkgs).sum +
            (([("A-1B", 8)] : List (String × Nat)).map Prod.snd).sum))) :=
  ⟨by decide,
   (mismatch_detection [⟨1, some "A-1B", "Yellow 001", 40⟩] [("A-1B", 8)] none (some 50)
      (some ⟨none, 8, some 50, 48, false, true⟩) (by decide) (by decide)).1⟩

/-- C6 counterexample: on an input with two bag rows both printed with index
1, `parse_route_page` succeeds and the sorted bag list has idx values [1, 1]
— not strictly increasing and not unique within the route. -/
theorem parse_idx_not_strict :
    (parse_route_bags "Sort Zone Bag Pkgs\n1 Yellow 001 10\n1 Green 002 5").map
        (fun r => r.1.map Bag.idx) = some [1, 1] ∧
    ¬ List.Chain' (fun a b : Nat => a < b) [1, 1] :=
  ⟨by decide, fun h => absurd (List.chain'_cons.mp h).1 (by omega)⟩

/-- C6 amended: whenever `parse_route_page` succeeds, the bag list is sorted
by `idx` in non-decreasing order (the final stable sort guarantees this);
strict increase/uniqueness holds only when the printed indices are distinct,
which the parser does not enforce. -/
theorem parse_idx_sorted_amended (text : String) (out : List Bag × List (String × Nat))
    (h : parse_route_bags text = some out) :
    List.Sorted (fun a b : Bag => a.idx ≤ b.idx) out.1 := by
  unfold parse_route_bags at h
  cases hidx : (pySplitlines text).findIdx? (fun l => containsSub "Sort Zone Bag Pkgs" l) with
  | none => rw [hidx] at h; simp at h
  | some hdrIdx =>
    rw [hidx] at h
    dsimp only at h
    split at h
    · exact absurd h (by simp)
    · simp only [Option.some.injEq] at h
      subst h
      exact List.sorted_insertionSort _ _

/-- C6 witness: a route printed out of order (2 before 1) parses to a bag
list sorted by idx. -/
theorem parse_idx_sorted_witness :
    List.Sorted (fun a b : Bag => a.idx ≤ b.idx)
      (([⟨1, none, "Green 002", 5⟩, ⟨2, none, "Yellow 001", 10⟩], ([] : List (String × Nat))) :
        List Bag × List (String × Nat)).1 :=
  parse_idx_sorted_amended "Sort Zone Bag Pkgs\n2 Yellow 001 10\n1 Green 002 5"
    ([⟨1, none, "Green 002", 5⟩, ⟨2, none, "Yellow 001", 10⟩], []) (by decide)

end RouteStacker

section SanityChecks
open RouteStacker
example : split_zone_for_index "16.2U" = some ("16.2", 'U') := by decide
example : split_zone_for_index "A-16.2U" = some ("A-16.2", 'U') := by decide
example : split_zone_for_index "" = none := by decide
example : is_99_tag "99.X" = true := by decide
example : labelCore "A-99.X" = "99.X" := by decide
example : dictGet INVERSE_PAIR 'T' = some 'A' := by decide
example : dictGet INVERSE_PAIR 'A' = none := by decide
example :
    assign_overflows [⟨1, none, "Yellow 001", 10⟩] [("A-16.2U", 5)] =
      some ([["16.2U (5)"]], [5]) := by decide
example :
    assign_overflows [⟨1, some "Z-1T", "Yellow 001", 3⟩, ⟨2, some "Z-1A", "Green 002", 4⟩]
      [("Z-1A", 5)] = some ([[], ["1A (5)"]], [0, 5]) := by decide
example : assign_overflows [] [("A-1B", 5)] = some ([], []) := by decide
example : assign_overflows [] [("", 5)] = none := by decide
example :
    (parse_route_bags "Sort Zone Bag Pkgs\n1 Yellow 001 10\n1 Green 002 5").map
      (fun r => r.1.map Bag.idx) = some [1, 1] := by decide
example :
    parse_route_bags "Sort Zone Bag Pkgs\n2 Yellow 001 10\n1 Green 002 5" =
      some ([⟨1, none, "Green 002", 5⟩, ⟨2, none, "Yellow 001", 10⟩], []) := by decide
example :
    parse_route_bags "junk\nSort Zone Bag Pkgs\n1 A-16.2U Yellow 001 10 2 A-16.3U 7\nTotal Packages 17" =
      some ([⟨1, some "A-16.2U", "Yellow 001", 10⟩], [("A-16.3U", 7)]) := by decide
example : parse_route_bags "no header here" = none := by decide
example : is_header_page "STG.A.1 blah CX12" = true := by decide
example : is_header_page "stg.a.1 tx9" = true := by decide
example : is_header_page "STG.AB.1 CX12" = false := by decide
example : is_header_page "xSTG.A.1 CX12" = false := by decide
example : is_tableish_page "has 12 bags here" = true := by decide
example : is_tableish_page "12bags" = false := by decide
example : group_pages ["STG.A.1 CX12", "3 bags", "other", "STG.B.2 TX1"] = [[0, 1], [3]] := by decide
example : group_pages ["hello", "3 bags"] = [] := by decide
example : tote_cols 45 = 15 := by decide
example : (tote_positions 2) = [(1,0),(1,1),(1,2),(0,0),(0,1),(0,2)] := by decide
example :
    route_verification [⟨1, some "A-1B", "Yellow 001", 40⟩] [("A-1B", 8)] none (some 50) =
      some (some ⟨none, 8, some 50, 48, false, true⟩) := by decide
example : scanAdvance ["1", "Yellow", "001", "10"] 0 = 4 := by decide
end SanityChecks
